import Mathlib

/-!
Shallow embedding of the rule-execution engine of `k8s-manifests-lint`:
the document/finding data model (`pkg/linter/types.go`), the registry
(`pkg/linter/registry.go`), the runner (`pkg/linter/runner.go`), the jq
expression linter (`pkg/linters/jq/jq.go`), the resource-limits linter
(`pkg/linters/resourcelimits/resourcelimits.go`), and the structural
helpers (`pkg/k8s/query.go`, `pkg/utils/k8s`, `pkg/utils/gvk`).

Go's `interface{}` values that hold decoded YAML/JSON data are modelled by
the tree type `Val`; Go maps `map[string]interface{}` are modelled as
association lists looked up by key.  Fallible Go functions returning
`(T, error)` are modelled with `Except String T`.  The external gojq
library is abstracted as an engine record (`JqEngine`): the repository
calls it only through `Parse`, `Compile` and the result iterator.
-/

/-- Dynamically typed value: models Go `interface{}` holding decoded
YAML/JSON data (`nil`, `bool`, numbers, `string`, `[]interface{}`,
`map[string]interface{}`). -/
inductive Val where
  | null : Val
  | bool (b : Bool) : Val
  | num (n : Int) : Val
  | str (s : String) : Val
  | arr (xs : List Val) : Val
  | obj (kvs : List (String × Val)) : Val

/-- Settings map, models Go `map[string]interface{}` (association list,
first binding wins, mirroring unique map keys). -/
def Settings : Type := List (String × Val)

/-- Map lookup, models Go `m[k]` returning `(value, ok)`. -/
def lookupS (m : List (String × Val)) (k : String) : Option Val :=
  List.lookup k m

/-- Kubernetes unstructured object: `unstructured.Unstructured` wraps the
decoded content map `.Object`. -/
structure KObj where
  raw : Val

/-- Navigation to a nested string field, defaulting to `""` exactly as the
`unstructured` accessors (`GetKind`, `GetName`, ...) do when the field is
absent or not a string. -/
def getStrField (v : Val) : List String → String
  | [] => match v with
          | .str s => s
          | _ => ""
  | k :: ks => match v with
               | .obj kvs => match lookupS kvs k with
                             | some w => getStrField w ks
                             | none => ""
               | _ => ""

/-- Models `obj.GetKind()`. -/
def KObj.getKind (o : KObj) : String := getStrField o.raw ["kind"]

/-- Models `obj.GetAPIVersion()`. -/
def KObj.getAPIVersion (o : KObj) : String := getStrField o.raw ["apiVersion"]

/-- Models `obj.GetName()`. -/
def KObj.getName (o : KObj) : String := getStrField o.raw ["metadata", "name"]

/-- Models `obj.GetNamespace()`. -/
def KObj.getNamespace (o : KObj) : String := getStrField o.raw ["metadata", "namespace"]

/-- Splitting a character list on `/` (structural recursion, so that the
kernel can evaluate it on concrete documents). -/
def splitSlashChars : List Char → List (List Char)
  | [] => [[]]
  | c :: rest =>
    let r := splitSlashChars rest
    if c = '/' then [] :: r
    else match r with
         | [] => [[c]]
         | g :: gs => (c :: g) :: gs

/-- Splitting a string on `/`, models `strings.Split(s, "/")`. -/
def splitSlash (s : String) : List String :=
  (splitSlashChars s.data).map (fun cs => ⟨cs⟩)

/-- Group and version of an `apiVersion` string, models
`schema.FromAPIVersionAndKind` / `ParseGroupVersion`: `"g/v"` splits into
group `g` and version `v`, a bare `"v"` has empty group. -/
def parseGroupVersion (apiVersion : String) : String × String :=
  match splitSlash apiVersion with
  | [v] => ("", v)
  | [g, v] => (g, v)
  | _ => ("", "")

/-- Models `obj.GroupVersionKind()` as a (group, version, kind) triple. -/
def KObj.gvk (o : KObj) : String × String × String :=
  let gv := parseGroupVersion o.getAPIVersion
  (gv.1, gv.2, o.getKind)

/-- Models `schema.GroupVersion.String()`: `"g/v"`, or `"v"` when the
group is empty. -/
def groupVersionString (group version : String) : String :=
  if group = "" then version else group ++ "/" ++ version

/-- Resource reference carried by an issue (`pkg/linter/types.go`,
`ResourceRef`). -/
structure ResourceRef where
  APIVersion : String
  Kind : String
  Namespace : String
  Name : String
deriving DecidableEq

/-- One reported finding (`pkg/linter/types.go`, `Issue`).  The Go
`Severity` type is a string type, so it is modelled as `String`. -/
structure Issue where
  Severity : String
  Linter : String
  Message : String
  Resource : ResourceRef
  Field : String
  Suggestion : String
deriving DecidableEq

/-- Models `common.ResourceRef(obj)` (and the identical literal built
inline by the linters): the four unstructured accessors. -/
def resourceRefOf (obj : KObj) : ResourceRef :=
  { APIVersion := obj.getAPIVersion
    Kind := obj.getKind
    Namespace := obj.getNamespace
    Name := obj.getName }

/-! ## The jq expression linter (`pkg/linters/jq/jq.go`) -/

/-- One configured expression rule entry (`jq.Rule`). -/
structure JqRule where
  Expression : String
  Message : String
  Severity : String
  Field : String
  Suggestion : String
deriving DecidableEq

/-- Parsing of one element of the `rules` settings array, mirroring the
body of the `for i, ruleData := range rulesData` loop of
`jq.Linter.Configure`: the element must be a map, `expression` and
`message` must be present as strings, `severity` defaults to
`SeverityError` (`"error"`) and is overwritten only when present as a
string, `field` and `suggestion` default to the empty string. -/
def jqRuleOfVal (i : Nat) (ruleData : Val) : Except String JqRule :=
  match ruleData with
  | .obj ruleMap =>
    match lookupS ruleMap "expression" with
    | some (.str expr) =>
      match lookupS ruleMap "message" with
      | some (.str msg) =>
        Except.ok
          { Expression := expr
            Message := msg
            Severity := match lookupS ruleMap "severity" with
                        | some (.str sev) => sev
                        | _ => "error"
            Field := match lookupS ruleMap "field" with
                     | some (.str f) => f
                     | _ => ""
            Suggestion := match lookupS ruleMap "suggestion" with
                          | some (.str sg) => sg
                          | _ => "" }
      | _ => Except.error ("rule " ++ toString i ++ ": message is required")
    | _ => Except.error ("rule " ++ toString i ++ ": expression is required")
  | _ => Except.error ("rule " ++ toString i ++ " must be an object")

/-- The `Configure` loop over the `rules` array elements, indexed from
`i`. -/
def jqConfigureRules (i : Nat) : List Val → Except String (List JqRule)
  | [] => Except.ok []
  | ruleData :: rest =>
    match jqRuleOfVal i ruleData with
    | Except.error e => Except.error e
    | Except.ok r =>
      match jqConfigureRules (i + 1) rest with
      | Except.error e => Except.error e
      | Except.ok rs => Except.ok (r :: rs)

/-- Models `jq.Linter.Configure`: `settings["rules"]` must be an array,
each element is parsed by the loop; on success the parsed rule list
replaces the linter's rule state.  Note that the expression strings are
stored as-is: `Configure` never parses or compiles them. -/
def jqConfigure (settings : Settings) : Except String (List JqRule) :=
  match lookupS settings "rules" with
  | some (.arr rulesData) => jqConfigureRules 0 rulesData
  | _ => Except.error "rules must be an array"

/-- One element of the gojq result iterator: a value, or an error yielded
inside the result stream. -/
inductive JqRes where
  | val (v : Val) : JqRes
  | err (e : String) : JqRes

/-- Abstraction of the external gojq library, which the repository calls
only through `gojq.Parse`, `gojq.Compile` (with the `$objects`/`$object`
variables) and `code.Run(nil, allObjects, obj)`.  `run` is keyed by the
expression string and returns the result stream for a given document set
and document. -/
structure JqEngine where
  parse : String → Except String Unit
  compile : String → Except String Unit
  run : String → List Val → Val → List JqRes

/-- The result-iterator loop inside `jq.Linter.Lint`: an error result
aborts, a `nil` or `false` value is skipped, any other value fires (the
loop breaks after the first firing value). -/
def jqFires : List JqRes → Except String Bool
  | [] => Except.ok false
  | JqRes.err e :: _ => Except.error e
  | JqRes.val v :: rest =>
    match v with
    | .null => jqFires rest
    | .bool false => jqFires rest
    | _ => Except.ok true

/-- The issue built by `jq.Linter.Lint` when a rule entry fires: the
entry's static message, severity, field and suggestion, plus the resource
reference of the current document. -/
def jqIssue (lname : String) (r : JqRule) (obj : KObj) : Issue :=
  { Severity := r.Severity
    Linter := lname
    Message := r.Message
    Resource := resourceRefOf obj
    Field := r.Field
    Suggestion := r.Suggestion }

/-- Models `jq.Linter.Lint`: for each configured rule entry the
expression is parsed and compiled (both at Lint time), the result stream
is scanned, and at most one issue per entry is appended.  Any parse,
compile or in-stream error aborts with the corresponding wrapped
message. -/
def jqLint (eng : JqEngine) (lname : String) (rules : List JqRule)
    (allObjects : List KObj) (obj : KObj) : Except String (List Issue) :=
  match rules with
  | [] => Except.ok []
  | r :: rest =>
    match eng.parse r.Expression with
    | Except.error e =>
      Except.error ("failed to parse jq expression \"" ++ r.Expression ++ "\": " ++ e)
    | Except.ok _ =>
      match eng.compile r.Expression with
      | Except.error e =>
        Except.error ("failed to compile jq expression \"" ++ r.Expression ++ "\": " ++ e)
      | Except.ok _ =>
        match jqFires (eng.run r.Expression (allObjects.map KObj.raw) obj.raw) with
        | Except.error e =>
          Except.error ("jq expression \"" ++ r.Expression ++ "\" failed: " ++ e)
        | Except.ok fired =>
          match jqLint eng lname rest allObjects obj with
          | Except.error e => Except.error e
          | Except.ok more =>
            Except.ok (if fired then jqIssue lname r obj :: more else more)

/-! ## Structural helpers (`pkg/k8s/query.go`, `pkg/utils/gvk`, `pkg/utils/k8s`) -/

/-- Type name of a value, used only to render the gojq indexing error
text (the exact wording is not load-bearing for any claim). -/
def Val.typeName : Val → String
  | .null => "null"
  | .bool _ => "boolean"
  | .num _ => "number"
  | .str _ => "string"
  | .arr _ => "array"
  | .obj _ => "object"

/-- One step of gojq field navigation `.key`: indexing `null` gives
`null`, indexing an object gives the entry or `null` when absent, and
indexing any other value is a runtime error — exactly gojq's semantics
for the constant field-path queries used by `pkg/k8s/query.go` and
`pkg/utils/k8s`. -/
def jqFieldStep (key : String) : Val → Except String Val
  | Val.null => Except.ok Val.null
  | Val.obj kvs => Except.ok ((lookupS kvs key).getD Val.null)
  | v => Except.error ("cannot index " ++ v.typeName ++ " with \"" ++ key ++ "\"")

/-- Running a constant field-path query `.k1.k2...` through gojq:
`k8s.Query` parses the (well-formed, constant) query and takes the first
result of the iterator, which for a field-path query is its unique
result. -/
def jqPath : List String → Val → Except String Val
  | [], v => Except.ok v
  | k :: ks, v =>
    match jqFieldStep k v with
    | Except.error e => Except.error e
    | Except.ok w => jqPath ks w

namespace K8sQuery

/-- Models `k8s.GetContainers` of `pkg/k8s/query.go`: dispatch on the
document kind alone chooses the query path (`CronJob` and `Pod` are
special-cased, every other kind uses `.spec.template.spec.containers`),
then the query result is returned as containers when it is an array, as
no containers when it is `nil` or any non-array value, and as an error
when the query itself errors. -/
def GetContainers (obj : KObj) : Except String (List Val) :=
  let path :=
    if obj.getKind = "CronJob" then
      ["spec", "jobTemplate", "spec", "template", "spec", "containers"]
    else if obj.getKind = "Pod" then
      ["spec", "containers"]
    else
      ["spec", "template", "spec", "containers"]
  match jqPath path obj.raw with
  | Except.error e => Except.error e
  | Except.ok (Val.arr xs) => Except.ok xs
  | Except.ok _ => Except.ok []

end K8sQuery

namespace Gvk

/-- GroupVersionKind triples of `pkg/utils/gvk` (group, version, kind). -/
def Deployment : String × String × String := ("apps", "v1", "Deployment")

/-- StatefulSet GVK (`apps/v1`). -/
def StatefulSet : String × String × String := ("apps", "v1", "StatefulSet")

/-- DaemonSet GVK (`apps/v1`). -/
def DaemonSet : String × String × String := ("apps", "v1", "DaemonSet")

/-- Job GVK (`batch/v1`). -/
def Job : String × String × String := ("batch", "v1", "Job")

/-- CronJob GVK (`batch/v1`). -/
def CronJob : String × String × String := ("batch", "v1", "CronJob")

/-- Pod GVK (core group `""`, `v1`). -/
def Pod : String × String × String := ("", "v1", "Pod")

/-- Models `gvk.IsGVK`. -/
def IsGVK (obj : KObj) (g : String × String × String) : Bool :=
  obj.gvk == g

/-- Models `gvk.IsAnyGVK`. -/
def IsAnyGVK (obj : KObj) (gvks : List (String × String × String)) : Bool :=
  gvks.any (fun g => obj.gvk == g)

/-- Models `gvk.IsWorkload`: Deployment, StatefulSet, DaemonSet, Job or
CronJob. -/
def IsWorkload (obj : KObj) : Bool :=
  IsAnyGVK obj [Deployment, StatefulSet, DaemonSet, Job, CronJob]

end Gvk

namespace UtilsK8s

/-- Models `k8s.GetContainers` of `pkg/utils/k8s`: dispatch on the full
GroupVersionKind supports only CronJob, Pod and Deployment; every other
GVK is rejected with an `unsuported type` error (spelling as in the
source).  A successful query returns the containers when the result is
an array and no containers when it is `nil` or a non-array value. -/
def GetContainers (obj : KObj) : Except String (List Val) :=
  if Gvk.IsGVK obj Gvk.CronJob then
    match jqPath ["spec", "jobTemplate", "spec", "template", "spec", "containers"] obj.raw with
    | Except.error e => Except.error e
    | Except.ok (Val.arr xs) => Except.ok xs
    | Except.ok _ => Except.ok []
  else if Gvk.IsGVK obj Gvk.Pod then
    match jqPath ["spec", "containers"] obj.raw with
    | Except.error e => Except.error e
    | Except.ok (Val.arr xs) => Except.ok xs
    | Except.ok _ => Except.ok []
  else if Gvk.IsGVK obj Gvk.Deployment then
    match jqPath ["spec", "template", "spec", "containers"] obj.raw with
    | Except.error e => Except.error e
    | Except.ok (Val.arr xs) => Except.ok xs
    | Except.ok _ => Except.ok []
  else
    Except.error ("unsuported type: "
      ++ groupVersionString (obj.gvk).1 (obj.gvk).2.1 ++ ":" ++ (obj.gvk).2.2)

end UtilsK8s

/-! ## The resource-limits linter (`pkg/linters/resourcelimits/resourcelimits.go`
and its earlier incarnation `pkg/linters/resource_limits.go`) -/

/-- Configuration of the resource-limits linter (`resourcelimits.Config`;
the earlier `ResourceLimitsLinter` holds the same five fields
directly). -/
structure RLConfig where
  RequireCPULimit : Bool
  RequireMemoryLimit : Bool
  RequireCPURequest : Bool
  RequireMemoryRequest : Bool
  ExcludeNamespaces : List String
deriving DecidableEq

/-- Registration-time configuration of the resource-limits linter: all
four requirements default to true (`init()` in both versions). -/
def rlDefault : RLConfig :=
  { RequireCPULimit := true
    RequireMemoryLimit := true
    RequireCPURequest := true
    RequireMemoryRequest := true
    ExcludeNamespaces := [] }

/-- Decoding of one boolean settings key as `mapstructure.Decode` does
for a `bool` struct field: absent keys leave the current field value
unchanged, a boolean value overwrites it, and a value of any other type
is a decode error (the error text is not load-bearing). -/
def decodeBoolField (key : String) (settings : Settings) (cur : Bool) : Except String Bool :=
  match lookupS settings key with
  | none => Except.ok cur
  | some (Val.bool b) => Except.ok b
  | some _ => Except.error ("cannot decode " ++ key)

/-- Decoding of the `exclude-namespaces` key as `mapstructure.Decode`
does for a `[]string` field: absent key keeps the current value, an array
of strings overwrites it, anything else is a decode error. -/
def decodeStrListField (key : String) (settings : Settings) (cur : List String) :
    Except String (List String) :=
  match lookupS settings key with
  | none => Except.ok cur
  | some (Val.arr xs) =>
    if xs.all (fun x => match x with | Val.str _ => true | _ => false) then
      Except.ok (xs.filterMap (fun x => match x with | Val.str s => some s | _ => none))
    else
      Except.error ("cannot decode " ++ key)
  | some _ => Except.error ("cannot decode " ++ key)

/-- Models `resourcelimits.Linter.Configure`, which is exactly
`mapstructure.Decode(settings, &l.config)`: each struct field is
overwritten only when its `mapstructure` key is present in the settings
map, and every field whose key is absent keeps its prior value. -/
def rlConfigure (c : RLConfig) (settings : Settings) : Except String RLConfig :=
  match decodeBoolField "require-cpu-limit" settings c.RequireCPULimit with
  | Except.error e => Except.error e
  | Except.ok cpuL =>
  match decodeBoolField "require-memory-limit" settings c.RequireMemoryLimit with
  | Except.error e => Except.error e
  | Except.ok memL =>
  match decodeBoolField "require-cpu-request" settings c.RequireCPURequest with
  | Except.error e => Except.error e
  | Except.ok cpuR =>
  match decodeBoolField "require-memory-request" settings c.RequireMemoryRequest with
  | Except.error e => Except.error e
  | Except.ok memR =>
  match decodeStrListField "exclude-namespaces" settings c.ExcludeNamespaces with
  | Except.error e => Except.error e
  | Except.ok ns =>
    Except.ok
      { RequireCPULimit := cpuL
        RequireMemoryLimit := memL
        RequireCPURequest := cpuR
        RequireMemoryRequest := memR
        ExcludeNamespaces := ns }

/-- Models the earlier hand-written `ResourceLimitsLinter.Configure` of
`pkg/linters/resource_limits.go`: each field is overwritten only when its
key is present with the right dynamic type (a failed type assertion is
silently skipped), and `exclude-namespaces` keeps only the string
elements of the array.  It never returns an error. -/
def rlConfigureOld (c : RLConfig) (settings : Settings) : RLConfig :=
  let c := match lookupS settings "require-cpu-limit" with
           | some (Val.bool b) => { c with RequireCPULimit := b }
           | _ => c
  let c := match lookupS settings "require-memory-limit" with
           | some (Val.bool b) => { c with RequireMemoryLimit := b }
           | _ => c
  let c := match lookupS settings "require-cpu-request" with
           | some (Val.bool b) => { c with RequireCPURequest := b }
           | _ => c
  let c := match lookupS settings "require-memory-request" with
           | some (Val.bool b) => { c with RequireMemoryRequest := b }
           | _ => c
  match lookupS settings "exclude-namespaces" with
  | some (Val.arr xs) =>
    { c with ExcludeNamespaces :=
        xs.filterMap (fun x => match x with | Val.str s => some s | _ => none) }
  | _ => c

/-- Issues produced by `resourcelimits.Linter.Lint` for the container at
index `i`: a non-map container is skipped; a container whose `resources`
key is absent (or not a map) yields the single "no resource requirements"
issue; otherwise the four requirement checks each contribute one issue
when enabled and missing, in source order (CPU limit, memory limit, CPU
request, memory request). -/
def rlContainerIssues (cfg : RLConfig) (obj : KObj) (i : Nat) (container : Val) : List Issue :=
  match container with
  | Val.obj cm =>
    let cname := match lookupS cm "name" with
                 | some (Val.str s) => s
                 | _ => ""
    match lookupS cm "resources" with
    | some (Val.obj resources) =>
      let limits := match lookupS resources "limits" with
                    | some (Val.obj m) => m
                    | _ => []
      let requests := match lookupS resources "requests" with
                      | some (Val.obj m) => m
                      | _ => []
      (if cfg.RequireCPULimit && (lookupS limits "cpu").isNone then
        [{ Severity := "error"
           Linter := "resource-limits"
           Message := "Container \"" ++ cname ++ "\" missing CPU limit"
           Resource := resourceRefOf obj
           Field := "spec.template.spec.containers[" ++ toString i ++ "].resources.limits.cpu"
           Suggestion := "Add: resources.limits.cpu: \"1000m\"" }]
      else []) ++
      (if cfg.RequireMemoryLimit && (lookupS limits "memory").isNone then
        [{ Severity := "error"
           Linter := "resource-limits"
           Message := "Container \"" ++ cname ++ "\" missing memory limit"
           Resource := resourceRefOf obj
           Field := "spec.template.spec.containers[" ++ toString i ++ "].resources.limits.memory"
           Suggestion := "Add: resources.limits.memory: \"512Mi\"" }]
      else []) ++
      (if cfg.RequireCPURequest && (lookupS requests "cpu").isNone then
        [{ Severity := "error"
           Linter := "resource-limits"
           Message := "Container \"" ++ cname ++ "\" missing CPU request"
           Resource := resourceRefOf obj
           Field := "spec.template.spec.containers[" ++ toString i ++ "].resources.requests.cpu"
           Suggestion := "Add: resources.requests.cpu: \"100m\"" }]
      else []) ++
      (if cfg.RequireMemoryRequest && (lookupS requests "memory").isNone then
        [{ Severity := "error"
           Linter := "resource-limits"
           Message := "Container \"" ++ cname ++ "\" missing memory request"
           Resource := resourceRefOf obj
           Field := "spec.template.spec.containers[" ++ toString i ++ "].resources.requests.memory"
           Suggestion := "Add: resources.requests.memory: \"256Mi\"" }]
      else [])
    | _ =>
      [{ Severity := "error"
         Linter := "resource-limits"
         Message := "Container \"" ++ cname ++ "\" has no resource requirements"
         Resource := resourceRefOf obj
         Field := "spec.template.spec.containers[" ++ toString i ++ "].resources"
         Suggestion := "Add resources.requests and resources.limits" }]
  | _ => []

/-- Models `resourcelimits.Linter.Lint`: non-workload documents are
skipped, excluded namespaces are skipped, containers are resolved through
`pkg/utils/k8s.GetContainers` (whose error aborts), and each container
contributes its issues in order. -/
def rlLint (cfg : RLConfig) (obj : KObj) : Except String (List Issue) :=
  if ¬ Gvk.IsWorkload obj then Except.ok []
  else if cfg.ExcludeNamespaces.contains obj.getNamespace then Except.ok []
  else
    match UtilsK8s.GetContainers obj with
    | Except.error e => Except.error e
    | Except.ok containers =>
      Except.ok (containers.enum.flatMap (fun p => rlContainerIssues cfg obj p.1 p.2))

/-! ## Registry and runner (`pkg/linter/registry.go`, `pkg/linter/runner.go`) -/

/-- A registered linter instance as the runner sees it
(`linter.Linter`): a name, a mutable configuration state, a `Lint`
behaviour (receiving the configuration, the full document set taken from
the context, and the current document) and a `Configure` behaviour
updating the configuration state. -/
structure LinterM where
  name : String
  state : Settings
  lintF : Settings → List KObj → KObj → Except String (List Issue)
  configureF : Settings → Settings → Except String Settings

/-- Models `registry.linters[name]` lookup on the registry contents,
where each instance is keyed by its own `Name()` (as `Register`
stores it). -/
def lookupName : List LinterM → String → Option LinterM
  | [], _ => none
  | l :: ls, s => if l.name = s then some l else lookupName ls s

/-- Lexicographic comparison of character lists (structural recursion,
kernel-computable; agrees with Go byte order on the ASCII linter
names). -/
def charsLe : List Char → List Char → Bool
  | [], _ => true
  | _ :: _, [] => false
  | a :: as, b :: bs =>
    if a < b then true
    else if b < a then false
    else charsLe as bs

/-- Lexicographic order on strings, the order `sort.Strings` sorts by. -/
def strLe (a b : String) : Bool := charsLe a.data b.data

/-- The sorting relation as a proposition. -/
def StrLeP (a b : String) : Prop := strLe a b = true

instance : DecidableRel StrLeP := fun a b => instDecidableEqBool (strLe a b) true

/-- Models `sort.Strings` on the collected registry key set (insertion
sort by the lexicographic order). -/
def sortStr (l : List String) : List String := l.insertionSort StrLeP

/-- Models `linter.All()`: collect the registry keys, sort them, and
return the registered instances in sorted-name order. -/
def allLinters (reg : List LinterM) : List LinterM :=
  (sortStr (reg.map LinterM.name)).filterMap (lookupName reg)

/-- Applying a settings block to a linter instance, models the
`l.Configure(settings)` call: on success the same instance carries the
updated configuration state. -/
def configureL (l : LinterM) (s : Settings) : Except String LinterM :=
  match l.configureF l.state s with
  | Except.error e => Except.error e
  | Except.ok st => Except.ok { l with state := st }

/-- The per-linter settings table of the run configuration
(`RunnerConfig.Settings : map[string]map[string]interface{}`). -/
def lookupSettings (m : List (String × Settings)) (k : String) : Option Settings :=
  List.lookup k m

/-- Models the active-rule-selection loop of `linter.NewRunner` (the
`for _, l := range All()` loop): a linter is skipped when the enabled
list is non-empty and does not contain its name, or when the disabled
list contains its name; a surviving linter with a settings block is
configured (a configuration error aborts with a message naming the
linter) and appended. -/
def newRunnerLinters (en dis : List String) (settings : List (String × Settings)) :
    List LinterM → Except String (List LinterM)
  | [] => Except.ok []
  | l :: ls =>
    if !en.isEmpty && !(en.contains l.name) then
      newRunnerLinters en dis settings ls
    else if dis.contains l.name then
      newRunnerLinters en dis settings ls
    else
      match lookupSettings settings l.name with
      | some s =>
        match configureL l s with
        | Except.error e =>
          Except.error ("failed to configure linter \"" ++ l.name ++ "\": " ++ e)
        | Except.ok l' =>
          match newRunnerLinters en dis settings ls with
          | Except.error e => Except.error e
          | Except.ok rest => Except.ok (l' :: rest)
      | none =>
        match newRunnerLinters en dis settings ls with
        | Except.error e => Except.error e
        | Except.ok rest => Except.ok (l :: rest)

/-- The error returned by `Runner.Run` when a unit fails:
`fmt.Errorf("linter %q failed on %s/%s: %w", ...)` names the linter and
the document's kind and name and wraps the unit's own error. -/
structure RunError where
  linter : String
  kind : String
  name : String
  wrapped : String
deriving DecidableEq

/-- Rendering of the wrapped run error exactly as `fmt.Errorf` formats
it. -/
def RunError.render (e : RunError) : String :=
  "linter \"" ++ e.linter ++ "\" failed on " ++ e.kind ++ "/" ++ e.name ++ ": " ++ e.wrapped

/-- The inner `for _, linter := range r.linters` loop of `Runner.Run` on
one document: issues accumulate in linter order until the first failing
linter, whose error aborts the loop. -/
def lintLoop (linters : List LinterM) (objects : List KObj) (obj : KObj) :
    List Issue × Option RunError :=
  match linters with
  | [] => ([], none)
  | l :: ls =>
    match l.lintF l.state objects obj with
    | Except.error e => ([], some ⟨l.name, obj.getKind, obj.getName, e⟩)
    | Except.ok issues =>
      let rest := lintLoop ls objects obj
      (issues ++ rest.1, rest.2)

/-- The outer `for _, obj := range objects` loop of `Runner.Run`:
`allObjects` is the full document list placed in the context by
`WithAllObjects` and handed unchanged to every unit, while the loop walks
the remaining documents. -/
def runLoop (linters : List LinterM) (allObjects : List KObj) :
    List KObj → List Issue × Option RunError
  | [] => ([], none)
  | o :: os =>
    match lintLoop linters allObjects o with
    | (issues, some e) => (issues, some e)
    | (issues, none) =>
      let rest := runLoop linters allObjects os
      (issues ++ rest.1, rest.2)

/-- Models `Runner.Run`: the documents are traversed in order (outer
loop) and the active linters in order (inner loop); every unit's issues
are appended to the shared accumulator, and the first unit error aborts
the run, returning the issues accumulated so far together with the
wrapped error.  The full document list is exposed to every unit through
the context (`WithAllObjects`). -/
def runGo (linters : List LinterM) (objects : List KObj) : List Issue × Option RunError :=
  runLoop linters objects objects

/-! ## Result-stream classification helpers -/

/-- A stream element is an in-stream error. -/
def isErrRes : JqRes → Bool
  | JqRes.err _ => true
  | JqRes.val _ => false

/-- A stream element is a firing (truthy) value: any value other than
`null` and `false`. -/
def truthyRes : JqRes → Bool
  | JqRes.val Val.null => false
  | JqRes.val (Val.bool false) => false
  | JqRes.val _ => true
  | JqRes.err _ => false

/-- On an error-free result stream the iterator loop fires exactly when
some stream value is neither `null` nor `false`. -/
theorem jqFires_noErr (s : List JqRes) (h : ∀ x ∈ s, isErrRes x = false) :
    jqFires s = Except.ok (s.any truthyRes) := by
  induction s with
  | nil => rfl
  | cons x rest ih =>
    have hrest : ∀ y ∈ rest, isErrRes y = false :=
      fun y hy => h y (List.mem_cons_of_mem _ hy)
    cases x with
    | err e => exact absurd (h _ (List.mem_cons_self _ _)) (by simp [isErrRes])
    | val v =>
      cases v with
      | null => simpa [jqFires, truthyRes] using ih hrest
      | bool b =>
        cases b with
        | false => simpa [jqFires, truthyRes] using ih hrest
        | true => simp [jqFires, truthyRes]
      | num n => simp [jqFires, truthyRes]
      | str s => simp [jqFires, truthyRes]
      | arr xs => simp [jqFires, truthyRes]
      | obj kvs => simp [jqFires, truthyRes]

/-- C10: an expression-rule entry whose settings map omits the
`severity` key but provides `expression` and `message` as strings is
accepted by `Configure` (at any loop index, hence at any position of the
rules array; in particular a one-entry rules block configures
successfully), the stored entry carries severity `"error"`, and every
issue the entry fires through `Lint` carries severity `"error"`. -/
theorem jq_severity_defaults_to_error
    (m : List (String × Val)) (e msg : String)
    (he : lookupS m "expression" = some (Val.str e))
    (hm : lookupS m "message" = some (Val.str msg))
    (hs : lookupS m "severity" = none) :
    ∃ r : JqRule,
      (∀ i : Nat, jqRuleOfVal i (Val.obj m) = Except.ok r) ∧
      jqConfigure [("rules", Val.arr [Val.obj m])] = Except.ok [r] ∧
      r.Severity = "error" ∧ r.Expression = e ∧ r.Message = msg ∧
      ∀ (lname : String) (obj : KObj), (jqIssue lname r obj).Severity = "error" := by
  refine ⟨{ Expression := e
            Message := msg
            Severity := "error"
            Field := match lookupS m "field" with
                     | some (.str f) => f
                     | _ => ""
            Suggestion := match lookupS m "suggestion" with
                          | some (.str sg) => sg
                          | _ => "" }, ?_, ?_, rfl, rfl, rfl, fun _ _ => rfl⟩
  · intro i
    simp only [jqRuleOfVal, he, hm, hs]
  · have h0 : jqRuleOfVal 0 (Val.obj m) = Except.ok
        { Expression := e
          Message := msg
          Severity := "error"
          Field := match lookupS m "field" with
                   | some (.str f) => f
                   | _ => ""
          Suggestion := match lookupS m "suggestion" with
                        | some (.str sg) => sg
                        | _ => "" } := by
      simp only [jqRuleOfVal, he, hm, hs]
    show jqConfigureRules 0 [Val.obj m] = _
    simp only [jqConfigureRules, h0]

/-- Witness for `jq_severity_defaults_to_error` at a concrete one-entry
settings block omitting `severity`. -/
theorem jq_severity_defaults_to_error_witness :
    ∃ r : JqRule,
      (∀ i : Nat, jqRuleOfVal i
        (Val.obj [("expression", Val.str ".kind"), ("message", Val.str "bad kind")]) =
        Except.ok r) ∧
      jqConfigure [("rules", Val.arr
        [Val.obj [("expression", Val.str ".kind"), ("message", Val.str "bad kind")]])] =
        Except.ok [r] ∧
      r.Severity = "error" ∧ r.Expression = ".kind" ∧ r.Message = "bad kind" ∧
      ∀ (lname : String) (obj : KObj), (jqIssue lname r obj).Severity = "error" :=
  jq_severity_defaults_to_error
    [("expression", Val.str ".kind"), ("message", Val.str "bad kind")]
    ".kind" "bad kind" rfl rfl rfl

/-- C5: on error-free result streams, `Lint` emits per configured rule
entry either no issue (when every stream value is `null` or `false`) or
exactly one issue (when some value is neither, no matter how many such
values the stream yields), and that issue carries the entry's static
message, severity, field and suggestion (`jqIssue`). -/
theorem jq_entry_truthiness
    (eng : JqEngine) (lname : String) (rules : List JqRule)
    (objs : List KObj) (obj : KObj)
    (hpc : ∀ r ∈ rules, eng.parse r.Expression = Except.ok () ∧
      eng.compile r.Expression = Except.ok ())
    (hne : ∀ r ∈ rules, ∀ x ∈ eng.run r.Expression (objs.map KObj.raw) obj.raw,
      isErrRes x = false) :
    jqLint eng lname rules objs obj =
      Except.ok (rules.filterMap (fun r =>
        if (eng.run r.Expression (objs.map KObj.raw) obj.raw).any truthyRes
        then some (jqIssue lname r obj) else none)) := by
  induction rules with
  | nil => rfl
  | cons r rest ih =>
    obtain ⟨hp, hc⟩ := hpc r (List.mem_cons_self _ _)
    have hfires := jqFires_noErr _ (hne r (List.mem_cons_self _ _))
    have ihh := ih (fun q hq => hpc q (List.mem_cons_of_mem _ hq))
      (fun q hq => hne q (List.mem_cons_of_mem _ hq))
    by_cases hf : (eng.run r.Expression (objs.map KObj.raw) obj.raw).any truthyRes
    · simp [jqLint, hp, hc, hfires, ihh, hf, List.filterMap_cons, -List.any_eq_true]
    · simp [jqLint, hp, hc, hfires, ihh, hf, List.filterMap_cons, -List.any_eq_true]

/-- Engine used by the truthiness witness: the expression `.always`
yields two truthy values, every other expression yields only `null` and
`false`. -/
def engTruthy : JqEngine :=
  { parse := fun _ => Except.ok ()
    compile := fun _ => Except.ok ()
    run := fun e _ _ =>
      if e = ".always" then [JqRes.val (Val.bool true), JqRes.val (Val.num 1)]
      else [JqRes.val Val.null, JqRes.val (Val.bool false)] }

/-- Rule entry whose expression fires (twice) in `engTruthy`. -/
def ruleFire : JqRule :=
  { Expression := ".always", Message := "fires", Severity := "warning"
    Field := "spec.x", Suggestion := "fix it" }

/-- Rule entry whose expression never fires in `engTruthy`. -/
def ruleQuiet : JqRule :=
  { Expression := ".never", Message := "quiet", Severity := "error"
    Field := "", Suggestion := "" }

/-- Concrete document for the jq witnesses. -/
def podObj : KObj :=
  ⟨Val.obj [("apiVersion", Val.str "v1"), ("kind", Val.str "Pod"),
    ("metadata", Val.obj [("name", Val.str "p")])]⟩

/-- Witness for `jq_entry_truthiness`: the firing entry emits exactly one
issue despite two truthy stream values, the quiet entry emits none. -/
theorem jq_entry_truthiness_witness :
    jqLint engTruthy "custom" [ruleFire, ruleQuiet] [] podObj =
      Except.ok [jqIssue "custom" ruleFire podObj] := by
  have h := jq_entry_truthiness engTruthy "custom" [ruleFire, ruleQuiet] [] podObj
    (by intro r hr; exact ⟨rfl, rfl⟩)
    (by intro r hr; fin_cases hr <;> (intro x hx; fin_cases hx <;> rfl))
  rw [h]
  rfl

/-- Shape-validity of one element of a `rules` settings array: the only
properties `Configure` checks (a map providing `expression` and `message`
as strings) — notably it says nothing about the expression's syntax. -/
def EntryShapeOk (v : Val) : Prop :=
  ∃ kvs e msg, v = Val.obj kvs ∧ lookupS kvs "expression" = some (Val.str e) ∧
    lookupS kvs "message" = some (Val.str msg)

/-- The `Configure` loop succeeds on every shape-valid rules array, at
any starting index, whatever the expression strings contain. -/
theorem jqConfigureRules_ok : ∀ (vs : List Val) (i : Nat),
    (∀ v ∈ vs, EntryShapeOk v) → ∃ rs, jqConfigureRules i vs = Except.ok rs
  | [], _, _ => ⟨[], rfl⟩
  | v :: rest, i, h => by
    obtain ⟨kvs, e, msg, hv, he, hm⟩ := h v (List.mem_cons_self _ _)
    obtain ⟨rs, hrs⟩ :=
      jqConfigureRules_ok rest (i + 1) (fun w hw => h w (List.mem_cons_of_mem _ hw))
    subst hv
    exact ⟨_, by simp only [jqConfigureRules, jqRuleOfVal, he, hm, hrs]; rfl⟩

/-- Models the fact that gojq's Parse rejects the (malformed) expression
string `"]["`; stand-in for the external `gojq.Parse`, which the
repository calls only inside `Lint`. -/
def parseStub : String → Except String Unit := fun s =>
  if s = "][" then Except.error "unexpected token" else Except.ok ()

/-- Engine whose parse step is `parseStub`. -/
def engStub : JqEngine :=
  { parse := parseStub, compile := fun _ => Except.ok (), run := fun _ _ _ => [] }

/-- Settings block holding one rule entry with a malformed expression. -/
def malformedBlock : Settings :=
  [("rules", Val.arr [Val.obj [("expression", Val.str "]["), ("message", Val.str "m")]])]

/-- C3 counterexample: for a settings block whose expression string is
malformed (rejected by the parse step), `Configure` succeeds — it raises
no error at all, storing the raw string — and the parse error surfaces
only when `Lint` runs the entry against a document.  This refutes the
claim that the error is raised by the `Configure` call and never deferred
to `Lint`. -/
theorem jq_compile_at_configure_cex :
    parseStub "][" = Except.error "unexpected token" ∧
    jqConfigure malformedBlock = Except.ok
      [{ Expression := "][", Message := "m", Severity := "error"
         Field := "", Suggestion := "" }] ∧
    jqLint engStub "jq"
      [{ Expression := "][", Message := "m", Severity := "error"
         Field := "", Suggestion := "" }] [] podObj =
      Except.error "failed to parse jq expression \"][\": unexpected token" :=
  ⟨rfl, rfl, rfl⟩

/-- C3 amended: `Configure` performs only structural validation of the
settings (a `rules` array whose entries provide `expression` and
`message` as strings) and stores the expression strings uncompiled, so it
succeeds whatever the expressions contain; parsing and compilation happen
inside `Lint` (per rule entry, per document evaluated), and a malformed
expression is reported as an evaluation-time error from `Lint` wrapping
the parse failure. -/
theorem jq_malformed_expression_deferred_to_lint
    (vs : List Val) (h : ∀ v ∈ vs, EntryShapeOk v) :
    (∃ rs, jqConfigure [("rules", Val.arr vs)] = Except.ok rs) ∧
    ∀ (eng : JqEngine) (lname : String) (r : JqRule) (rest : List JqRule)
      (objs : List KObj) (obj : KObj) (e : String),
      eng.parse r.Expression = Except.error e →
      jqLint eng lname (r :: rest) objs obj =
        Except.error ("failed to parse jq expression \"" ++ r.Expression ++ "\": " ++ e) := by
  constructor
  · obtain ⟨rs, hrs⟩ := jqConfigureRules_ok vs 0 h
    exact ⟨rs, by show jqConfigureRules 0 vs = _; exact hrs⟩
  · intro eng lname r rest objs obj e hp
    simp [jqLint, hp]

/-- Witness for `jq_malformed_expression_deferred_to_lint` at the
concrete malformed block and stub engine. -/
theorem jq_malformed_expression_deferred_to_lint_witness :
    (∃ rs, jqConfigure [("rules", Val.arr
      [Val.obj [("expression", Val.str "]["), ("message", Val.str "m")]])] =
      Except.ok rs) ∧
    ∀ (eng : JqEngine) (lname : String) (r : JqRule) (rest : List JqRule)
      (objs : List KObj) (obj : KObj) (e : String),
      eng.parse r.Expression = Except.error e →
      jqLint eng lname (r :: rest) objs obj =
        Except.error ("failed to parse jq expression \"" ++ r.Expression ++ "\": " ++ e) :=
  jq_malformed_expression_deferred_to_lint
    [Val.obj [("expression", Val.str "]["), ("message", Val.str "m")]]
    (by intro v hv; fin_cases hv; exact ⟨_, "][", "m", rfl, rfl, rfl⟩)

/-- A boolean settings key absent from the map leaves the decoded field
at its current value. -/
theorem decodeBoolField_absent (k : String) (s : Settings) (cur : Bool)
    (h : lookupS s k = none) : decodeBoolField k s cur = Except.ok cur := by
  simp [decodeBoolField, h]

/-- A string-list settings key absent from the map leaves the decoded
field at its current value. -/
theorem decodeStrListField_absent (k : String) (s : Settings) (cur : List String)
    (h : lookupS s k = none) : decodeStrListField k s cur = Except.ok cur := by
  simp [decodeStrListField, h]

/-- Inversion of a successful `rlConfigure`: each field of the result is
the decode of its own key against the prior field value. -/
theorem rlConfigure_ok_inv (c c' : RLConfig) (s : Settings)
    (h : rlConfigure c s = Except.ok c') :
    decodeBoolField "require-cpu-limit" s c.RequireCPULimit =
      Except.ok c'.RequireCPULimit ∧
    decodeBoolField "require-memory-limit" s c.RequireMemoryLimit =
      Except.ok c'.RequireMemoryLimit ∧
    decodeBoolField "require-cpu-request" s c.RequireCPURequest =
      Except.ok c'.RequireCPURequest ∧
    decodeBoolField "require-memory-request" s c.RequireMemoryRequest =
      Except.ok c'.RequireMemoryRequest ∧
    decodeStrListField "exclude-namespaces" s c.ExcludeNamespaces =
      Except.ok c'.ExcludeNamespaces := by
  unfold rlConfigure at h
  cases hA : decodeBoolField "require-cpu-limit" s c.RequireCPULimit with
  | error e => rw [hA] at h; simp at h
  | ok bA =>
  rw [hA] at h
  cases hB : decodeBoolField "require-memory-limit" s c.RequireMemoryLimit with
  | error e => rw [hB] at h; simp at h
  | ok bB =>
  rw [hB] at h
  cases hC : decodeBoolField "require-cpu-request" s c.RequireCPURequest with
  | error e => rw [hC] at h; simp at h
  | ok bC =>
  rw [hC] at h
  cases hD : decodeBoolField "require-memory-request" s c.RequireMemoryRequest with
  | error e => rw [hD] at h; simp at h
  | ok bD =>
  rw [hD] at h
  cases hE : decodeStrListField "exclude-namespaces" s c.ExcludeNamespaces with
  | error e => rw [hE] at h; simp at h
  | ok ns =>
  rw [hE] at h
  simp only [Except.ok.injEq] at h
  subst h
  exact ⟨rfl, rfl, rfl, rfl, rfl⟩

/-- C7: a rule instance's configuration state survives into the next
run (the registry hands the same instance to every `NewRunner` call),
and both generations of the resource-limits `Configure` update a
configuration field only when its settings key is present: starting from
any prior state, after a first run configures the instance (`h1`), a
second run whose settings map omits a key leaves that key's field
exactly as the first run left it — for the current `mapstructure`-based
`Configure` (`rlConfigure`) and for the earlier hand-written one
(`rlConfigureOld`). -/
theorem rl_settings_retained_across_runs
    (c0 c1 c2 : RLConfig) (s1 s2 : Settings)
    (h1 : rlConfigure c0 s1 = Except.ok c1)
    (h2 : rlConfigure c1 s2 = Except.ok c2) :
    (lookupS s2 "require-cpu-limit" = none →
      c2.RequireCPULimit = c1.RequireCPULimit) ∧
    (lookupS s2 "require-memory-limit" = none →
      c2.RequireMemoryLimit = c1.RequireMemoryLimit) ∧
    (lookupS s2 "require-cpu-request" = none →
      c2.RequireCPURequest = c1.RequireCPURequest) ∧
    (lookupS s2 "require-memory-request" = none →
      c2.RequireMemoryRequest = c1.RequireMemoryRequest) ∧
    (lookupS s2 "exclude-namespaces" = none →
      c2.ExcludeNamespaces = c1.ExcludeNamespaces) ∧
    (lookupS s2 "require-cpu-limit" = none →
      (rlConfigureOld c1 s2).RequireCPULimit = c1.RequireCPULimit) ∧
    (lookupS s2 "require-memory-limit" = none →
      (rlConfigureOld c1 s2).RequireMemoryLimit = c1.RequireMemoryLimit) ∧
    (lookupS s2 "require-cpu-request" = none →
      (rlConfigureOld c1 s2).RequireCPURequest = c1.RequireCPURequest) ∧
    (lookupS s2 "require-memory-request" = none →
      (rlConfigureOld c1 s2).RequireMemoryRequest = c1.RequireMemoryRequest) ∧
    (lookupS s2 "exclude-namespaces" = none →
      (rlConfigureOld c1 s2).ExcludeNamespaces = c1.ExcludeNamespaces) := by
  obtain ⟨hA, hB, hC, hD, hE⟩ := rlConfigure_ok_inv c1 c2 s2 h2
  refine ⟨?_, ?_, ?_, ?_, ?_, ?_, ?_, ?_, ?_, ?_⟩
  · intro habs
    rw [decodeBoolField_absent _ _ _ habs] at hA
    exact (Except.ok.inj hA).symm
  · intro habs
    rw [decodeBoolField_absent _ _ _ habs] at hB
    exact (Except.ok.inj hB).symm
  · intro habs
    rw [decodeBoolField_absent _ _ _ habs] at hC
    exact (Except.ok.inj hC).symm
  · intro habs
    rw [decodeBoolField_absent _ _ _ habs] at hD
    exact (Except.ok.inj hD).symm
  · intro habs
    rw [decodeStrListField_absent _ _ _ habs] at hE
    exact (Except.ok.inj hE).symm
  · intro habs
    unfold rlConfigureOld
    rw [habs]
    repeat' split
    all_goals first | rfl | simp_all
  · intro habs
    unfold rlConfigureOld
    rw [habs]
    repeat' split
    all_goals first | rfl | simp_all
  · intro habs
    unfold rlConfigureOld
    rw [habs]
    repeat' split
    all_goals first | rfl | simp_all
  · intro habs
    unfold rlConfigureOld
    rw [habs]
    repeat' split
    all_goals first | rfl | simp_all
  · intro habs
    unfold rlConfigureOld
    rw [habs]
    repeat' split
    all_goals first | rfl | simp_all

/-- Configuration state left by a first run that disabled the CPU-limit
requirement. -/
def rlAfterRun1 : RLConfig :=
  { RequireCPULimit := false
    RequireMemoryLimit := true
    RequireCPURequest := true
    RequireMemoryRequest := true
    ExcludeNamespaces := [] }

/-- Witness for `rl_settings_retained_across_runs`: run one sets
`require-cpu-limit: false` from the registration defaults; run two passes
an empty settings map and every field — including the non-default
CPU-limit flag — retains run one's value. -/
theorem rl_settings_retained_across_runs_witness :
    (lookupS [] "require-cpu-limit" = none →
      rlAfterRun1.RequireCPULimit = rlAfterRun1.RequireCPULimit) ∧
    (lookupS [] "require-memory-limit" = none →
      rlAfterRun1.RequireMemoryLimit = rlAfterRun1.RequireMemoryLimit) ∧
    (lookupS [] "require-cpu-request" = none →
      rlAfterRun1.RequireCPURequest = rlAfterRun1.RequireCPURequest) ∧
    (lookupS [] "require-memory-request" = none →
      rlAfterRun1.RequireMemoryRequest = rlAfterRun1.RequireMemoryRequest) ∧
    (lookupS [] "exclude-namespaces" = none →
      rlAfterRun1.ExcludeNamespaces = rlAfterRun1.ExcludeNamespaces) ∧
    (lookupS [] "require-cpu-limit" = none →
      (rlConfigureOld rlAfterRun1 []).RequireCPULimit = rlAfterRun1.RequireCPULimit) ∧
    (lookupS [] "require-memory-limit" = none →
      (rlConfigureOld rlAfterRun1 []).RequireMemoryLimit = rlAfterRun1.RequireMemoryLimit) ∧
    (lookupS [] "require-cpu-request" = none →
      (rlConfigureOld rlAfterRun1 []).RequireCPURequest = rlAfterRun1.RequireCPURequest) ∧
    (lookupS [] "require-memory-request" = none →
      (rlConfigureOld rlAfterRun1 []).RequireMemoryRequest = rlAfterRun1.RequireMemoryRequest) ∧
    (lookupS [] "exclude-namespaces" = none →
      (rlConfigureOld rlAfterRun1 []).ExcludeNamespaces = rlAfterRun1.ExcludeNamespaces) :=
  rl_settings_retained_across_runs rlDefault rlAfterRun1 rlAfterRun1
    [("require-cpu-limit", Val.bool false)] [] rfl rfl

/-! ## C8: `GetContainers` on unrecognized kinds -/

/-- Document of an unrecognized kind that nevertheless carries a pod
template at the default query path. -/
def widgetWithTemplate : KObj :=
  ⟨Val.obj [("apiVersion", Val.str "example.com/v1"), ("kind", Val.str "Widget"),
    ("metadata", Val.obj [("name", Val.str "w")]),
    ("spec", Val.obj [("template", Val.obj [("spec", Val.obj
      [("containers", Val.arr [Val.obj [("name", Val.str "c")]])])])])]⟩

/-- Document of an unrecognized kind whose `spec` is a scalar, so the
default query errors while navigating. -/
def widgetWithScalarSpec : KObj :=
  ⟨Val.obj [("apiVersion", Val.str "example.com/v1"), ("kind", Val.str "Widget"),
    ("metadata", Val.obj [("name", Val.str "w2")]),
    ("spec", Val.str "oops")]⟩

/-- C8 counterexample: `Widget` is not a recognized workload kind, yet
`GetContainers` does not return zero containers for every such document —
it runs the default query `.spec.template.spec.containers`, so a Widget
carrying a pod template yields one container, and a Widget whose `spec`
is a scalar yields an error instead of an empty result. -/
theorem getContainers_unknown_kind_cex :
    widgetWithTemplate.getKind = "Widget" ∧
    widgetWithScalarSpec.getKind = "Widget" ∧
    K8sQuery.GetContainers widgetWithTemplate =
      Except.ok [Val.obj [("name", Val.str "c")]] ∧
    K8sQuery.GetContainers widgetWithTemplate ≠ Except.ok [] ∧
    K8sQuery.GetContainers widgetWithScalarSpec =
      Except.error "cannot index string with \"template\"" := by
  refine ⟨rfl, rfl, rfl, ?_, rfl⟩
  intro h
  simp [K8sQuery.GetContainers, jqPath, jqFieldStep, lookupS, List.lookup,
    KObj.getKind, getStrField, widgetWithTemplate] at h

/-- C8 amended: for every document whose kind is neither `CronJob` nor
`Pod` (in particular every unrecognized kind), `GetContainers` never
fails by dispatch — it falls through to the default query
`.spec.template.spec.containers` — and returns zero containers and no
error whenever that path resolves to `null` (the case for documents that
lack such nested structure, e.g. typical non-workload resources); when
the path holds an array those containers are returned, when it holds a
non-array value the result is zero containers, and a navigation error
(a non-object, non-null value along the path) is propagated. -/
theorem getContainers_unknown_kind_default_path (obj : KObj)
    (hck : obj.getKind ≠ "CronJob") (hp : obj.getKind ≠ "Pod") :
    (jqPath ["spec", "template", "spec", "containers"] obj.raw = Except.ok Val.null →
      K8sQuery.GetContainers obj = Except.ok []) ∧
    (∀ xs, jqPath ["spec", "template", "spec", "containers"] obj.raw =
      Except.ok (Val.arr xs) → K8sQuery.GetContainers obj = Except.ok xs) ∧
    (∀ e, jqPath ["spec", "template", "spec", "containers"] obj.raw =
      Except.error e → K8sQuery.GetContainers obj = Except.error e) := by
  refine ⟨?_, ?_, ?_⟩
  · intro hnull
    simp [K8sQuery.GetContainers, hck, hp, hnull]
  · intro xs harr
    simp [K8sQuery.GetContainers, hck, hp, harr]
  · intro e herr
    simp [K8sQuery.GetContainers, hck, hp, herr]

/-- Witness for `getContainers_unknown_kind_default_path`: a ConfigMap
(no `spec` at all) yields zero containers and no error. -/
theorem getContainers_unknown_kind_default_path_witness :
    K8sQuery.GetContainers ⟨Val.obj [("apiVersion", Val.str "v1"),
      ("kind", Val.str "ConfigMap"),
      ("metadata", Val.obj [("name", Val.str "cm")]),
      ("data", Val.obj [("k", Val.str "v")])]⟩ = Except.ok [] :=
  (getContainers_unknown_kind_default_path
    ⟨Val.obj [("apiVersion", Val.str "v1"), ("kind", Val.str "ConfigMap"),
      ("metadata", Val.obj [("name", Val.str "cm")]),
      ("data", Val.obj [("k", Val.str "v")])]⟩
    (by decide) (by decide)).1 rfl

/-! ## C9: resource-limits on a container with no resources block -/

/-- StatefulSet (a workload kind) with one container carrying no
`resources` block. -/
def stsNoResources : KObj :=
  ⟨Val.obj [("apiVersion", Val.str "apps/v1"), ("kind", Val.str "StatefulSet"),
    ("metadata", Val.obj [("name", Val.str "db")]),
    ("spec", Val.obj [("template", Val.obj [("spec", Val.obj
      [("containers", Val.arr [Val.obj [("name", Val.str "app")]])])])])]⟩

/-- Deployment with one container carrying no `resources` block. -/
def depNoResources : KObj :=
  ⟨Val.obj [("apiVersion", Val.str "apps/v1"), ("kind", Val.str "Deployment"),
    ("metadata", Val.obj [("name", Val.str "web")]),
    ("spec", Val.obj [("template", Val.obj [("spec", Val.obj
      [("containers", Val.arr [Val.obj [("name", Val.str "app")]])])])])]⟩

/-- C9: for a Deployment the rule behaves as claimed — a container with
no `resources` block yields exactly the single "no resource
requirements" issue, not four missing-field issues — but for a
StatefulSet (equally accepted by the `IsWorkload` gate) `Lint` instead
returns the `unsuported type` error of `pkg/utils/k8s.GetContainers`,
which supports only CronJob, Pod and Deployment.  This evaluates the
code at the failing input of the code-bug report. -/
theorem rl_no_resources_single_finding :
    Gvk.IsWorkload stsNoResources = true ∧
    rlLint rlDefault stsNoResources =
      Except.error "unsuported type: apps/v1:StatefulSet" ∧
    rlLint rlDefault depNoResources = Except.ok
      [{ Severity := "error"
         Linter := "resource-limits"
         Message := "Container \"app\" has no resource requirements"
         Resource := { APIVersion := "apps/v1", Kind := "Deployment"
                       Namespace := "", Name := "web" }
         Field := "spec.template.spec.containers[0].resources"
         Suggestion := "Add resources.requests and resources.limits" }] :=
  ⟨rfl, rfl, rfl⟩

/-! ## C2: the runner aborts on a unit error -/

/-- The (document, rule) unit-of-work list in the order `Runner.Run`
traverses it: document-major, linter-minor. -/
def unitsOf (linters : List LinterM) (objects : List KObj) : List (KObj × LinterM) :=
  objects.flatMap (fun o => linters.map (fun l => (o, l)))

/-- The result of one evaluation unit. -/
def unitRes (objs : List KObj) (u : KObj × LinterM) : Except String (List Issue) :=
  u.2.lintF u.2.state objs u.1

/-- Issues of a successful unit (a failed unit contributes none). -/
def okIssues : Except String (List Issue) → List Issue
  | Except.ok issues => issues
  | Except.error _ => []

/-- Whether a unit result is an error. -/
def isErrE : Except String (List Issue) → Bool
  | Except.error _ => true
  | Except.ok _ => false

/-- The runner's doubly nested loop, flattened to a single walk over the
unit list: accumulate issues until the first failing unit, whose wrapped
error is returned with the issues collected so far. -/
def scanUnits (objs : List KObj) : List (KObj × LinterM) → List Issue × Option RunError
  | [] => ([], none)
  | u :: rest =>
    match unitRes objs u with
    | Except.error e => ([], some ⟨u.2.name, u.1.getKind, u.1.getName, e⟩)
    | Except.ok issues =>
      let r := scanUnits objs rest
      (issues ++ r.1, r.2)

/-- Scanning past an error-free prefix concatenates its issues. -/
theorem scanUnits_append_ok (objs : List KObj) (a b : List (KObj × LinterM))
    (h : (scanUnits objs a).2 = none) :
    scanUnits objs (a ++ b) =
      ((scanUnits objs a).1 ++ (scanUnits objs b).1, (scanUnits objs b).2) := by
  induction a with
  | nil => simp [scanUnits]
  | cons u rest ih =>
    cases hu : unitRes objs u with
    | error e => rw [List.cons_append, scanUnits, hu]; rw [scanUnits, hu] at h; simp at h
    | ok issues =>
      rw [scanUnits, hu] at h
      rw [List.cons_append, scanUnits, hu, ih h, scanUnits, hu]
      simp

/-- Scanning stops at a prefix that already failed. -/
theorem scanUnits_append_err (objs : List KObj) (a b : List (KObj × LinterM))
    (e : RunError) (h : (scanUnits objs a).2 = some e) :
    scanUnits objs (a ++ b) = scanUnits objs a := by
  induction a with
  | nil => rw [scanUnits] at h; simp at h
  | cons u rest ih =>
    cases hu : unitRes objs u with
    | error e2 => rw [List.cons_append, scanUnits, hu, scanUnits, hu]
    | ok issues =>
      rw [scanUnits, hu] at h
      rw [List.cons_append, scanUnits, hu, ih h, scanUnits, hu]

/-- The inner linter loop over one document equals the unit scan of that
document's unit batch. -/
theorem lintLoop_eq_scanUnits (linters : List LinterM) (objs : List KObj) (o : KObj) :
    lintLoop linters objs o = scanUnits objs (linters.map (fun l => (o, l))) := by
  induction linters with
  | nil => rfl
  | cons l ls ih =>
    rw [List.map_cons, lintLoop, scanUnits]
    cases hu : l.lintF l.state objs o with
    | error e => rw [show unitRes objs (o, l) = Except.error e from hu]
    | ok issues => rw [show unitRes objs (o, l) = Except.ok issues from hu, ih]

/-- The outer document loop equals the unit scan of the flattened unit
list. -/
theorem runLoop_eq_scanUnits (linters : List LinterM) (objs : List KObj)
    (rest : List KObj) :
    runLoop linters objs rest =
      scanUnits objs (rest.flatMap (fun o => linters.map (fun l => (o, l)))) := by
  induction rest with
  | nil => rfl
  | cons o os ih =>
    rw [List.flatMap_cons, runLoop, lintLoop_eq_scanUnits]
    cases hb : (scanUnits objs (linters.map (fun l => (o, l)))).2 with
    | none =>
      rw [scanUnits_append_ok objs _ _ hb, ih]
      have : scanUnits objs (linters.map (fun l => (o, l))) =
          ((scanUnits objs (linters.map (fun l => (o, l)))).1, none) := by
        rw [← hb]
      rw [this]
    | some e =>
      rw [scanUnits_append_err objs _ _ e hb]
      have : scanUnits objs (linters.map (fun l => (o, l))) =
          ((scanUnits objs (linters.map (fun l => (o, l)))).1, some e) := by
        rw [← hb]
      rw [this]

/-- First-failure decomposition of a unit scan that contains a failing
unit. -/
theorem scanUnits_first_error (objs : List KObj) :
    ∀ us : List (KObj × LinterM),
    (∃ u ∈ us, isErrE (unitRes objs u) = true) →
    ∃ pre u post e, us = pre ++ u :: post ∧
      (∀ w ∈ pre, isErrE (unitRes objs w) = false) ∧
      unitRes objs u = Except.error e ∧
      scanUnits objs us =
        (pre.flatMap (fun w => okIssues (unitRes objs w)),
          some ⟨u.2.name, u.1.getKind, u.1.getName, e⟩)
  | [], h => absurd h (by simp)
  | u :: rest, h => by
    cases hu : unitRes objs u with
    | error e =>
      refine ⟨[], u, rest, e, by simp, by simp, hu, ?_⟩
      rw [scanUnits, hu]
      simp
    | ok issues =>
      have hrest : ∃ w ∈ rest, isErrE (unitRes objs w) = true := by
        obtain ⟨w, hw, hwe⟩ := h
        rcases List.mem_cons.mp hw with rfl | hwr
        · rw [hu] at hwe; simp [isErrE] at hwe
        · exact ⟨w, hwr, hwe⟩
      obtain ⟨pre, w, post, e, hsplit, hpre, hweq, hscan⟩ :=
        scanUnits_first_error objs rest hrest
      refine ⟨u :: pre, w, post, e, by rw [hsplit, List.cons_append],
        ?_, hweq, ?_⟩
      · intro x hx
        rcases List.mem_cons.mp hx with rfl | hxp
        · simp [isErrE, hu]
        · exact hpre x hxp
      · simp only [scanUnits, hu, hscan, List.flatMap_cons, okIssues]

/-- C2: if any (document, rule) unit fails, `Runner.Run` returns the
error of the first failing unit in traversal order — carrying the
offending linter's name and the offending document's kind and name —
together with exactly the issues accumulated from the units evaluated
before it. -/
theorem run_aborts_and_reports_unit_error
    (linters : List LinterM) (objects : List KObj)
    (h : ∃ u ∈ unitsOf linters objects, isErrE (unitRes objects u) = true) :
    ∃ pre o l post e,
      unitsOf linters objects = pre ++ (o, l) :: post ∧
      (∀ w ∈ pre, isErrE (unitRes objects w) = false) ∧
      l.lintF l.state objects o = Except.error e ∧
      runGo linters objects =
        (pre.flatMap (fun w => okIssues (unitRes objects w)),
          some { linter := l.name, kind := o.getKind, name := o.getName, wrapped := e }) := by
  obtain ⟨pre, u, post, e, hsplit, hpre, hueq, hscan⟩ :=
    scanUnits_first_error objects (unitsOf linters objects) h
  refine ⟨pre, u.1, u.2, post, e, by simpa using hsplit, hpre, hueq, ?_⟩
  rw [runGo, runLoop_eq_scanUnits]
  exact hscan

/-- Linter that always reports one informational issue. -/
def okLinter : LinterM :=
  { name := "ok-linter"
    state := []
    lintF := fun _ _ obj => Except.ok
      [{ Severity := "info", Linter := "ok-linter", Message := "m"
         Resource := resourceRefOf obj, Field := "", Suggestion := "" }]
    configureF := fun st _ => Except.ok st }

/-- Linter that always fails. -/
def failLinter : LinterM :=
  { name := "fail-linter"
    state := []
    lintF := fun _ _ _ => Except.error "boom"
    configureF := fun st _ => Except.ok st }

/-- Witness for `run_aborts_and_reports_unit_error`: with an issue-producing
linter followed by a failing one, the run returns the first linter's
issues and the failing unit's wrapped error. -/
theorem run_aborts_and_reports_unit_error_witness :
    ∃ pre o l post e,
      unitsOf [okLinter, failLinter] [podObj] = pre ++ (o, l) :: post ∧
      (∀ w ∈ pre, isErrE (unitRes [podObj] w) = false) ∧
      l.lintF l.state [podObj] o = Except.error e ∧
      runGo [okLinter, failLinter] [podObj] =
        (pre.flatMap (fun w => okIssues (unitRes [podObj] w)),
          some { linter := l.name, kind := o.getKind, name := o.getName, wrapped := e }) :=
  run_aborts_and_reports_unit_error [okLinter, failLinter] [podObj]
    ⟨(podObj, failLinter), List.Mem.tail _ (List.Mem.head _), rfl⟩

/-! ## C4: active rule set -/

/-- The selection predicate implemented by the `NewRunner` loop: keep a
linter when the enabled list is empty or contains its name, and the
disabled list does not contain its name. -/
def activePred (en dis : List String) (l : LinterM) : Bool :=
  (en.isEmpty || en.contains l.name) && !(dis.contains l.name)

/-- A linter tags every issue it returns with its own name — true of
every linter in the repository (each sets `Linter: l.Name()`). -/
def SelfTagging (l : LinterM) : Prop :=
  ∀ st objs obj issues, l.lintF st objs obj = Except.ok issues →
    ∀ i ∈ issues, i.Linter = l.name

/-- `Configure` returns the same instance (same name), only its
configuration state changes. -/
theorem configureL_name (l l' : LinterM) (s : Settings)
    (h : configureL l s = Except.ok l') : l'.name = l.name := by
  unfold configureL at h
  cases hc : l.configureF l.state s with
  | error e => rw [hc] at h; simp at h
  | ok st => rw [hc] at h; simp only [Except.ok.injEq] at h; rw [← h]

/-- Name-level characterization of the `NewRunner` selection loop. -/
theorem newRunnerLinters_names (en dis : List String)
    (settings : List (String × Settings)) :
    ∀ (ls out : List LinterM), newRunnerLinters en dis settings ls = Except.ok out →
      out.map LinterM.name = (ls.filter (activePred en dis)).map LinterM.name
  | [], out, h => by
    simp only [newRunnerLinters, Except.ok.injEq] at h
    rw [← h]; rfl
  | l :: ls, out, h => by
    rw [newRunnerLinters] at h
    by_cases h1 : (!en.isEmpty && !(en.contains l.name)) = true
    · rw [if_pos h1] at h
      have hpred : activePred en dis l = false := by
        simp only [Bool.and_eq_true, Bool.not_eq_true'] at h1
        simp only [activePred, h1.1, h1.2, Bool.or_self, Bool.false_and]
      rw [List.filter_cons, if_neg (by simp [hpred])]
      exact newRunnerLinters_names en dis settings ls out h
    · rw [if_neg h1] at h
      by_cases h2 : dis.contains l.name = true
      · rw [if_pos h2] at h
        have hpred : activePred en dis l = false := by
          simp only [activePred, h2, Bool.not_true, Bool.and_false]
        rw [List.filter_cons, if_neg (by simp [hpred])]
        exact newRunnerLinters_names en dis settings ls out h
      · have hD : dis.contains l.name = false := by
          cases hDc : dis.contains l.name
          · rfl
          · exact absurd hDc h2
        rw [if_neg h2] at h
        have hEn : (en.isEmpty || en.contains l.name) = true := by
          cases hA : en.isEmpty with
          | true => rfl
          | false =>
            cases hB : en.contains l.name with
            | true => rfl
            | false => exact absurd (by rw [hA, hB]; rfl) h1
        have hpred : activePred en dis l = true := by
          simp only [activePred, hEn, hD, Bool.not_false, Bool.and_true]
        rw [List.filter_cons, if_pos hpred]
        cases hset : lookupSettings settings l.name with
        | some s =>
          simp only [hset] at h
          cases hcfg : configureL l s with
          | error e =>
            simp only [hcfg] at h
            exact Except.noConfusion h
          | ok l' =>
            simp only [hcfg] at h
            cases hrest : newRunnerLinters en dis settings ls with
            | error e =>
              simp only [hrest] at h
              exact Except.noConfusion h
            | ok rest =>
              simp only [hrest, Except.ok.injEq] at h
              rw [← h, List.map_cons, List.map_cons, configureL_name l _ s hcfg,
                newRunnerLinters_names en dis settings ls rest hrest]
        | none =>
          simp only [hset] at h
          cases hrest : newRunnerLinters en dis settings ls with
          | error e =>
            simp only [hrest] at h
            exact Except.noConfusion h
          | ok rest =>
            simp only [hrest, Except.ok.injEq] at h
            rw [← h, List.map_cons, List.map_cons,
              newRunnerLinters_names en dis settings ls rest hrest]

/-- Every issue returned by the scan comes from some unit's successful
result. -/
theorem scanUnits_issue_source (objs : List KObj) :
    ∀ us : List (KObj × LinterM), ∀ i ∈ (scanUnits objs us).1,
      ∃ u ∈ us, ∃ issues, unitRes objs u = Except.ok issues ∧ i ∈ issues
  | [], i, hi => absurd hi (by simp [scanUnits])
  | u :: rest, i, hi => by
    cases hu : unitRes objs u with
    | error e =>
      rw [scanUnits, hu] at hi
      exact absurd hi (by simp)
    | ok issues =>
      rw [scanUnits, hu] at hi
      simp only [List.mem_append] at hi
      rcases hi with hi | hi
      · exact ⟨u, List.mem_cons_self _ _, issues, hu, hi⟩
      · obtain ⟨w, hw, iss, hiss, hmem⟩ := scanUnits_issue_source objs rest i hi
        exact ⟨w, List.mem_cons_of_mem _ hw, iss, hiss, hmem⟩

/-- C4: on a successful `NewRunner`, the active linters are exactly the
registered linters (in registry order, i.e. sorted by name) filtered by
the enable/disable policy — all of them when the enabled list is empty,
only the enabled ones otherwise, always minus the disabled ones.  In
particular a linter named in the disabled list (even when also enabled)
is never active, and — since every linter tags its issues with its own
name — no issue of the run carries its name. -/
theorem active_rule_set
    (en dis : List String) (settings : List (String × Settings))
    (reg ls : List LinterM)
    (hok : newRunnerLinters en dis settings (allLinters reg) = Except.ok ls) :
    ls.map LinterM.name =
      ((allLinters reg).filter (activePred en dis)).map LinterM.name ∧
    ∀ n ∈ dis,
      (∀ l ∈ ls, l.name ≠ n) ∧
      ((∀ l ∈ ls, SelfTagging l) →
        ∀ objs i, i ∈ (runGo ls objs).1 → i.Linter ≠ n) := by
  have hnames := newRunnerLinters_names en dis settings (allLinters reg) ls hok
  refine ⟨hnames, ?_⟩
  intro n hn
  have hnotin : ∀ l ∈ ls, l.name ≠ n := by
    intro l hl
    have : l.name ∈ ls.map LinterM.name := List.mem_map_of_mem _ hl
    rw [hnames] at this
    obtain ⟨l', hl', hleq⟩ := List.mem_map.mp this
    have hpred := List.of_mem_filter hl'
    simp only [activePred, Bool.and_eq_true, Bool.not_eq_true'] at hpred
    intro hcontra
    have : dis.contains l'.name = true := by
      rw [hleq, hcontra]
      simpa using hn
    rw [this] at hpred
    exact Bool.noConfusion hpred.2
  refine ⟨hnotin, ?_⟩
  intro htag objs i hi
  rw [runGo, runLoop_eq_scanUnits] at hi
  obtain ⟨u, hu, issues, hiss, hmem⟩ :=
    scanUnits_issue_source objs (unitsOf ls objs) i hi
  have hlin : u.2 ∈ ls := by
    simp only [unitsOf, List.mem_flatMap, List.mem_map] at hu
    obtain ⟨o, _, l, hl, hueq⟩ := hu
    rw [← hueq]
    exact hl
  rw [htag u.2 hlin u.2.state objs u.1 issues hiss i hmem]
  exact hnotin u.2 hlin

/-- Registered linter named `alpha` for the selection witness. -/
def alphaLinter : LinterM :=
  { name := "alpha"
    state := []
    lintF := fun _ _ _ => Except.ok []
    configureF := fun st _ => Except.ok st }

/-- Registered linter named `beta` for the selection witness. -/
def betaLinter : LinterM :=
  { name := "beta"
    state := []
    lintF := fun _ _ _ => Except.ok []
    configureF := fun st _ => Except.ok st }

/-- Witness for `active_rule_set`: with `beta` both enabled and disabled
it is dropped from the active set and contributes no issues. -/
theorem active_rule_set_witness :
    [alphaLinter].map LinterM.name =
      ((allLinters [alphaLinter, betaLinter]).filter
        (activePred ["alpha", "beta"] ["beta"])).map LinterM.name ∧
    ∀ n ∈ ["beta"],
      (∀ l ∈ [alphaLinter], l.name ≠ n) ∧
      ((∀ l ∈ [alphaLinter], SelfTagging l) →
        ∀ objs i, i ∈ (runGo [alphaLinter] objs).1 → i.Linter ≠ n) :=
  active_rule_set ["alpha", "beta"] ["beta"] [] [alphaLinter, betaLinter]
    [alphaLinter] rfl

/-! ## C6: determinism of the run -/

/-- Totality of the lexicographic order. -/
theorem charsLe_total : ∀ xs ys : List Char,
    charsLe xs ys = true ∨ charsLe ys xs = true
  | [], _ => Or.inl rfl
  | _ :: _, [] => Or.inr rfl
  | a :: as, b :: bs => by
    rcases lt_trichotomy a b with hab | heq | hba
    · left; simp [charsLe, hab]
    · subst heq
      rcases charsLe_total as bs with h | h
      · left; simp [charsLe, lt_irrefl, h]
      · right; simp [charsLe, lt_irrefl, h]
    · right; simp [charsLe, hba]

/-- Transitivity of the lexicographic order. -/
theorem charsLe_trans : ∀ xs ys zs : List Char,
    charsLe xs ys = true → charsLe ys zs = true → charsLe xs zs = true
  | [], _, _, _, _ => rfl
  | _ :: _, [], _, h1, _ => by simp [charsLe] at h1
  | _ :: _, _ :: _, [], _, h2 => by simp [charsLe] at h2
  | a :: as, b :: bs, c :: cs, h1, h2 => by
    rcases lt_trichotomy a b with hab | hab | hab
    · rcases lt_trichotomy b c with hbc | hbc | hbc
      · simp [charsLe, lt_trans hab hbc]
      · subst hbc; simp [charsLe, hab]
      · simp [charsLe, hbc, lt_asymm hbc] at h2
    · subst hab
      simp only [charsLe, lt_irrefl, if_false] at h1
      rcases lt_trichotomy a c with hac | hac | hac
      · simp [charsLe, hac]
      · subst hac
        simp only [charsLe, lt_irrefl, if_false] at h2 ⊢
        exact charsLe_trans as bs cs h1 h2
      · simp [charsLe, hac, lt_asymm hac] at h2
    · simp [charsLe, hab, lt_asymm hab] at h1

/-- Antisymmetry of the lexicographic order. -/
theorem charsLe_antisymm : ∀ xs ys : List Char,
    charsLe xs ys = true → charsLe ys xs = true → xs = ys
  | [], [], _, _ => rfl
  | [], _ :: _, _, h2 => by simp [charsLe] at h2
  | _ :: _, [], h1, _ => by simp [charsLe] at h1
  | a :: as, b :: bs, h1, h2 => by
    rcases lt_trichotomy a b with hab | hab | hab
    · simp [charsLe, hab, lt_asymm hab] at h2
    · subst hab
      simp only [charsLe, lt_irrefl, if_false] at h1 h2
      rw [charsLe_antisymm as bs h1 h2]
    · simp [charsLe, hab, lt_asymm hab] at h1

instance : IsTotal String StrLeP :=
  ⟨fun a b => charsLe_total a.data b.data⟩

instance : IsTrans String StrLeP :=
  ⟨fun a b c => charsLe_trans a.data b.data c.data⟩

instance : IsAntisymm String StrLeP :=
  ⟨fun a b h1 h2 => by
    cases a with
    | mk da => cases b with
      | mk db =>
        have := charsLe_antisymm da db h1 h2
        rw [this]⟩

/-- Permutations of the registry key set sort identically: the essence
of `All()`'s determinism in the face of Go's unordered map iteration. -/
theorem sortStr_eq_of_perm (l1 l2 : List String) (h : l1.Perm l2) :
    sortStr l1 = sortStr l2 :=
  List.eq_of_perm_of_sorted
    ((l1.perm_insertionSort StrLeP).trans
      (h.trans (l2.perm_insertionSort StrLeP).symm))
    (List.sorted_insertionSort StrLeP l1)
    (List.sorted_insertionSort StrLeP l2)

/-- Registry lookup is invariant under permutation of the registry
contents when the registered names are distinct (as they are in the map
`registry.linters`). -/
theorem lookupName_perm (r1 r2 : List LinterM) (hp : r1.Perm r2)
    (hnd : (r1.map LinterM.name).Nodup) :
    ∀ s, lookupName r1 s = lookupName r2 s := by
  induction hp with
  | nil => intro s; rfl
  | cons x p ih =>
    intro s
    rw [List.map_cons, List.nodup_cons] at hnd
    rw [lookupName, lookupName, ih hnd.2 s]
  | swap x y l =>
    intro s
    rw [List.map_cons, List.map_cons, List.nodup_cons, List.nodup_cons] at hnd
    have hxy : y.name ≠ x.name := fun h =>
      hnd.1 (h ▸ List.mem_cons_self _ _)
    by_cases hys : y.name = s <;> by_cases hxs : x.name = s
    · exact absurd (hys.trans hxs.symm) hxy
    · simp [lookupName, hys, hxs]
    · simp [lookupName, hys, hxs]
    · simp [lookupName, hys, hxs]
  | trans p q ih1 ih2 =>
    intro s
    have hnd2 := (p.map LinterM.name).nodup hnd
    rw [ih1 hnd s, ih2 hnd2 s]

/-- `All()` is invariant under permutation of the registry contents. -/
theorem allLinters_perm (r1 r2 : List LinterM) (hp : r1.Perm r2)
    (hnd : (r1.map LinterM.name).Nodup) :
    allLinters r1 = allLinters r2 := by
  unfold allLinters
  rw [sortStr_eq_of_perm _ _ (hp.map LinterM.name)]
  have : lookupName r1 = lookupName r2 := funext (lookupName_perm r1 r2 hp hnd)
  rw [this]

/-- C6: the run is a deterministic function of the registry contents and
the document list: two registry states holding the same linters (in any
internal order, mirroring Go's unordered map) produce the same `All()`
list, and hence `Runner.Run` returns the same issue list in the same
order on every run over the same documents. -/
theorem run_deterministic (r1 r2 : List LinterM) (hp : r1.Perm r2)
    (hnd : (r1.map LinterM.name).Nodup) :
    allLinters r1 = allLinters r2 ∧
    ∀ objects, runGo (allLinters r1) objects = runGo (allLinters r2) objects := by
  have h := allLinters_perm r1 r2 hp hnd
  exact ⟨h, fun objects => by rw [h]⟩

/-- Witness for `run_deterministic`: the two-linter registry in both
internal orders yields identical `All()` output and identical runs. -/
theorem run_deterministic_witness :
    allLinters [betaLinter, alphaLinter] = allLinters [alphaLinter, betaLinter] ∧
    ∀ objects, runGo (allLinters [betaLinter, alphaLinter]) objects =
      runGo (allLinters [alphaLinter, betaLinter]) objects :=
  run_deterministic [betaLinter, alphaLinter] [alphaLinter, betaLinter]
    (List.Perm.swap alphaLinter betaLinter []) (by simp [alphaLinter, betaLinter])
